import Mathlib

/-!
Verification of the `books` personal-library storage engine.

This file gives a shallow embedding of the SQLite-backed library code
(`library.go` and the library half of `delete_file.go`) as pure Lean
functions over an explicit database state, and proves the frozen claims
about it.

Modelling conventions, chosen to mirror the source:
* Each table is a Lean list of row structures kept in rowid order;
  inserts append, deletes filter.  Row ids come from per-table counters
  (`next…Id` fields).  `created_on` / `updated_on` timestamp columns and
  the unused `template_override` column are not modelled: no operation
  reads them.
* The join tables `books_authors` and `files_tags` are lists of pairs;
  list order is id order (appends get increasing ids, deletes preserve
  order), which is exactly what the `ORDER BY ba.id` / `ORDER BY ft.id`
  queries observe.
* A transactional operation is a function `Db → Except LibError Db`.
  `Except.error` models an error return after `tx.Rollback()` (or a Go
  panic): the caller keeps the unchanged pre-state.  `Except.ok db`
  models `tx.Commit()`.
* On-disk file moves/copies/removes (`moveOrCopyFile`, `os.Remove`) are
  outside the database model; the modelled operations describe the
  database effect of the transaction when the filesystem step succeeds.
* Full-text matching (`books_fts match ?`) is the external FTS engine's
  behaviour; search operations take the row-match predicate as an
  explicit parameter.
-/

/-- A row of the `books` table (`id`, `series`, `title`). -/
structure BookRow where
  id : Nat
  series : String
  title : String
deriving DecidableEq

/-- A row of the `files` table. -/
structure FileRow where
  id : Nat
  bookId : Nat
  extension : String
  originalFilename : String
  filename : String
  fileSize : Nat
  fileMtime : Nat
  hash : String
  source : String
deriving DecidableEq

/-- A row of the `authors` table. -/
structure AuthorRow where
  id : Nat
  name : String
deriving DecidableEq

/-- A row of the `tags` table. -/
structure TagRow where
  id : Nat
  name : String
deriving DecidableEq

/-- A row of the `books_authors` join table (`book_id`, `author_id`). -/
structure BARow where
  bookId : Nat
  authorId : Nat
deriving DecidableEq

/-- A row of the `files_tags` join table (`file_id`, `tag_id`). -/
structure FTRow where
  fileId : Nat
  tagId : Nat
deriving DecidableEq

/-- A row of the `books_fts` full-text virtual table.  The `filename`
column is never written by the modelled operations (the insert in
`indexBookInSearch` omits it, leaving SQL NULL, modelled as `""`). -/
structure FtsRow where
  docid : Nat
  author : String
  series : String
  title : String
  extension : String
  tags : String
  filename : String
  source : String
deriving DecidableEq

/-- The database state: the five base tables, the two join tables and
the full-text table, plus rowid counters. -/
structure Db where
  books : List BookRow
  files : List FileRow
  authors : List AuthorRow
  tags : List TagRow
  booksAuthors : List BARow
  filesTags : List FTRow
  fts : List FtsRow
  nextBookId : Nat
  nextFileId : Nat
  nextAuthorId : Nat
  nextTagId : Nat
deriving DecidableEq

/-- The in-memory `BookFile` record passed into and out of operations. -/
structure BookFile where
  id : Nat
  extension : String
  originalFilename : String
  currentFilename : String
  fileSize : Nat
  fileMtime : Nat
  hash : String
  source : String
  tags : List String
deriving DecidableEq

/-- The in-memory `Book` record passed into and out of operations. -/
structure Book where
  id : Nat
  title : String
  series : String
  authors : List String
  files : List BookFile
deriving DecidableEq

/-- Error outcomes of the library operations.  `duplicate` is
ImportBook's "A duplicate book already exists with id %d" error;
`bookExists` is `BookExistsError` with its `BookID` field; `panicIdx`
models a Go runtime index-out-of-range panic; `uniqueViolation` models
an SQL unique-constraint failure. -/
inductive LibError where
  | duplicate (id : Nat)
  | bookExists (id : Nat)
  | validation
  | notFound
  | uniqueViolation
  | ftsMissing (id : Nat)
  | panicIdx
  | inconsistency
deriving DecidableEq

deriving instance DecidableEq for Except

/-- `authorsEqual` from the source: element-wise equality of the two
name slices. -/
def authorsEqual (a b : List String) : Bool :=
  a == b

/-- `getAuthorsByBookIds` specialised to one book: author names linked
to `bookId`, in `books_authors` id order (`ORDER BY ba.id`), joined to
`authors` for the names. -/
def authorsOfBook (db : Db) (bookId : Nat) : List String :=
  (db.booksAuthors.filter (fun l => l.bookId = bookId)).filterMap
    (fun l => (db.authors.find? (fun a => a.id = l.authorId)).map (fun a => a.name))

/-- `getTagsByFileIds` specialised to one file: tag names linked to
`fileId`, in `files_tags` id order (`ORDER BY ft.id`). -/
def tagsOfFile (db : Db) (fileId : Nat) : List String :=
  (db.filesTags.filter (fun l => l.fileId = fileId)).filterMap
    (fun l => (db.tags.find? (fun t => t.id = l.tagId)).map (fun t => t.name))

/-- Build the `BookFile` record `getFilesByID` scans from a `files`
row, with its tags. -/
def toBookFile (db : Db) (r : FileRow) : BookFile :=
  { id := r.id, extension := r.extension,
    originalFilename := r.originalFilename, currentFilename := r.filename,
    fileSize := r.fileSize, fileMtime := r.fileMtime,
    hash := r.hash, source := r.source, tags := tagsOfFile db r.id }

/-- `getFilesByBookIds` specialised to one book: the book's file rows
in table order, as `BookFile` records. -/
def filesOfBook (db : Db) (bookId : Nat) : List BookFile :=
  (db.files.filter (fun f => f.bookId = bookId)).map (toBookFile db)

/-- Build the `Book` record `getBooksByID` assembles from a `books`
row: its authors (link order) and files (table order). -/
def toBook (db : Db) (r : BookRow) : Book :=
  { id := r.id, title := r.title, series := r.series,
    authors := authorsOfBook db r.id, files := filesOfBook db r.id }

/-- `getBooksByID`: the `books` rows whose id is in `ids`, in table
order, enriched with authors and files. -/
def getBooksByID (db : Db) (ids : List Nat) : List Book :=
  (db.books.filter (fun r => r.id ∈ ids)).map (toBook db)

/-- `getBookIDByTitleAndAuthors`: among books with the given title,
find one whose linked author-name sequence equals `authors` exactly
(`authorsEqual`).  Books with no author links never appear in the
queried author map, so they can never match, as in the source. -/
def getBookIDByTitleAndAuthors (db : Db) (title : String) (authors : List String) :
    Option Nat :=
  let ids := (db.books.filter (fun r => r.title = title)).map (fun r => r.id)
  let pairs := ids.filterMap (fun i =>
    let names := authorsOfBook db i
    if names.isEmpty then none else some (i, names))
  (pairs.find? (fun p => authorsEqual authors p.2)).map (fun p => p.1)

/-- The `insert or ignore into books_authors` statement: a duplicate
(book, author) link is a no-op. -/
def linkBookAuthor (db : Db) (bookId authorId : Nat) : Db :=
  if db.booksAuthors.any (fun l => l.bookId = bookId && l.authorId = authorId) then db
  else { db with booksAuthors := db.booksAuthors ++ [⟨bookId, authorId⟩] }

/-- `insertAuthor`: find-or-create the author row by (unique) name,
then link it to the book, ignoring a duplicate link. -/
def insertAuthor (db : Db) (bookId : Nat) (author : String) : Db :=
  match db.authors.find? (fun a => a.name = author) with
  | some a => linkBookAuthor db bookId a.id
  | none =>
      let aid := db.nextAuthorId
      let db1 := { db with authors := db.authors ++ [⟨aid, author⟩],
                           nextAuthorId := aid + 1 }
      linkBookAuthor db1 bookId aid

/-- The `insert or ignore into files_tags` statement. -/
def linkFileTag (db : Db) (fileId tagId : Nat) : Db :=
  if db.filesTags.any (fun l => l.fileId = fileId && l.tagId = tagId) then db
  else { db with filesTags := db.filesTags ++ [⟨fileId, tagId⟩] }

/-- `insertTag`: find-or-create the tag row by (unique) name, then link
it to the file, ignoring a duplicate link. -/
def insertTag (db : Db) (fileId : Nat) (tag : String) : Db :=
  match db.tags.find? (fun t => t.name = tag) with
  | some t => linkFileTag db fileId t.id
  | none =>
      let tid := db.nextTagId
      let db1 := { db with tags := db.tags ++ [⟨tid, tag⟩], nextTagId := tid + 1 }
      linkFileTag db1 fileId tid

/-- `indexBookInSearch`.  With `createNew` it inserts a fresh document
aggregating all of the book's files; otherwise it fetches the existing
row for the book and appends the (single) file's tags/extension/source,
space-joined, to the stored strings.  `book.files[0]` is read before
the branch, so an empty file list is a runtime panic; the
`delete_file.go` copy of this function omits the `!createNew` length
check, which is unreachable from the modelled call sites anyway. -/
def indexBookInSearch (db : Db) (book : Book) (createNew : Bool) :
    Except LibError Db :=
  if createNew = false ∧ book.files.length ≠ 1 then .error .validation
  else
    match book.files with
    | [] => .error .panicIdx
    | bf :: _ =>
      if createNew then
        .ok { db with fts := db.fts ++ [{
          docid := book.id,
          author := String.intercalate " & " book.authors,
          series := book.series,
          title := book.title,
          extension := String.intercalate " " (book.files.map (fun f => f.extension)),
          tags := String.intercalate " " (book.files.map (fun f => f.tags)).flatten,
          filename := "",
          source := String.intercalate " " (book.files.map (fun f => f.source)) }] }
      else
        match db.fts.find? (fun r => r.docid = book.id) with
        | none => .error (.ftsMissing book.id)
        | some row =>
          .ok { db with fts := db.fts.map (fun r =>
            if r.docid = row.docid then
              { r with tags := row.tags ++ " " ++ String.intercalate " " bf.tags,
                       extension := row.extension ++ " " ++ bf.extension,
                       source := row.source ++ " " ++ bf.source }
            else r) }

/-- The `files` row inserted by `ImportBook`: the next rowid, the
resolved book id, and the record's scalar columns. -/
def importedFileRow (db : Db) (bid : Nat) (bf : BookFile) : FileRow :=
  { id := db.nextFileId, bookId := bid, extension := bf.extension,
    originalFilename := bf.originalFilename, filename := bf.currentFilename,
    fileSize := bf.fileSize, fileMtime := bf.fileMtime,
    hash := bf.hash, source := bf.source }

/-- `ImportBook` (database effect).  Requires exactly one file; aborts
with the duplicate error if any `files` row already has the file's
hash, scanning that row's `id` column into the error; otherwise reuses
or creates the book (linking authors), inserts the file row (subject to
the unique `filename` constraint; the unique `hash` constraint cannot
fire after the explicit check), links tags, and updates the search
index (append path when the book already existed). -/
def ImportBook (db : Db) (book : Book) : Except LibError Db :=
  match book.files with
  | [bf] =>
    match db.files.find? (fun f => f.hash = bf.hash) with
    | some f => .error (.duplicate f.id)
    | none =>
      let found? := getBookIDByTitleAndAuthors db book.title book.authors
      let resolved : Nat × Db :=
        match found? with
        | some i => (i, db)
        | none =>
          let nid := db.nextBookId
          let dbA := { db with books := db.books ++ [⟨nid, book.series, book.title⟩],
                               nextBookId := nid + 1 }
          (nid, book.authors.foldl (fun d a => insertAuthor d nid a) dbA)
      let bid := resolved.1
      let db1 := resolved.2
      if db1.files.any (fun f => f.filename = bf.currentFilename) then
        .error .uniqueViolation
      else
        let fid := db1.nextFileId
        let db2 := { db1 with
          files := db1.files ++ [importedFileRow db1 bid bf],
          nextFileId := fid + 1 }
        let db3 := bf.tags.foldl (fun d t => insertTag d fid t) db2
        indexBookInSearch db3 { book with id := bid } found?.isNone
  | _ => .error .validation

/-- `UpdateBook`.  Loads the book; no-ops (returning success on the
rolled-back, unchanged state) when title, authors and, if
`updateSeries`, series are unchanged; fails with `BookExistsError` when
a different book already holds the target (title, authors); otherwise
updates the row, replaces the author links wholesale when the authors
changed, and patches the search document's title/author fields. -/
def UpdateBook (db : Db) (book : Book) (updateSeries : Bool) : Except LibError Db :=
  match getBooksByID db [book.id] with
  | [] => .error .notFound
  | existingBook :: _ =>
    if (existingBook.title == book.title
        && authorsEqual existingBook.authors book.authors
        && (!updateSeries || existingBook.series == book.series)) then
      .ok db
    else
      let cont : Except LibError Db :=
        let db1 :=
          if (book.title != existingBook.title
              || (updateSeries && book.series != existingBook.series)) then
            { db with books := db.books.map (fun r =>
                if r.id = book.id then
                  (if updateSeries then { r with title := book.title, series := book.series }
                   else { r with title := book.title })
                else r) }
          else db
        let db2 :=
          if !(authorsEqual existingBook.authors book.authors) then
            let dbx := { db1 with booksAuthors :=
              db1.booksAuthors.filter (fun l => l.bookId ≠ book.id) }
            book.authors.foldl (fun d a => insertAuthor d book.id a) dbx
          else db1
        .ok { db2 with fts := db2.fts.map (fun r =>
          if r.docid = book.id then
            { r with title := book.title,
                     author := String.intercalate " & " book.authors }
          else r) }
      match getBookIDByTitleAndAuthors db book.title book.authors with
      | some eid => if book.id ≠ eid then .error (.bookExists eid) else cont
      | none => cont

/-- The `on delete cascade` effect of `delete from books where id in
(bids)`: the book rows go, and so do their `books_authors` links, their
`files` rows and those files' `files_tags` links. -/
def deleteBooksCascade (db : Db) (bids : List Nat) : Db :=
  let deadFiles := (db.files.filter (fun f => f.bookId ∈ bids)).map (fun f => f.id)
  { db with books := db.books.filter (fun r => r.id ∉ bids),
            booksAuthors := db.booksAuthors.filter (fun l => l.bookId ∉ bids),
            files := db.files.filter (fun f => f.bookId ∉ bids),
            filesTags := db.filesTags.filter (fun l => l.fileId ∉ deadFiles) }

/-- `mergeBooks`: reassign all files of `ids[1:]` to `ids[0]`, delete
the absorbed book rows (cascading) and their search documents, delete
the target's own document, then rebuild it from the target's complete
current file set via `indexBookInSearch` with `createNew`.  An empty id
list would panic on `ids[0]` in Go.  SQLite treats an empty `IN ()`
list as matching nothing, so a single-element call only rebuilds. -/
def mergeBooks (db : Db) (ids : List Nat) : Except LibError Db :=
  match ids with
  | [] => .error .panicIdx
  | i0 :: rest =>
    let db1 := { db with files := db.files.map (fun f =>
        if f.bookId ∈ rest then { f with bookId := i0 } else f) }
    let db2 := deleteBooksCascade db1 rest
    let db3 := { db2 with fts := db2.fts.filter (fun r => r.docid ∉ rest) }
    let db4 := { db3 with fts := db3.fts.filter (fun r => r.docid ≠ i0) }
    match getBooksByID db4 [i0] with
    | [] => .error .notFound
    | b :: _ => indexBookInSearch db4 b true

/-- `MergeBooks` wraps `mergeBooks` in one transaction. -/
def MergeBooks (db : Db) (ids : List Nat) : Except LibError Db :=
  mergeBooks db ids

/-- The delete set of `cleanupTags`: the tags linked to the file whose
total `files_tags` link count is exactly 1 (this file's link). -/
def tagsToDelete (db : Db) (fileId : Nat) : List Nat :=
  ((db.filesTags.filter (fun l => l.fileId = fileId)).map (fun l => l.tagId)).filter
    (fun t => (db.filesTags.filter (fun l => l.tagId = t)).length = 1)

/-- `cleanupTags`: delete the tags of `tagsToDelete`; deleting a tag
cascades its links.  The source skips the delete when the set is nil. -/
def cleanupTags (db : Db) (fileId : Nat) : Db :=
  let toDel := tagsToDelete db fileId
  if toDel.isEmpty then db
  else { db with tags := db.tags.filter (fun t => t.id ∉ toDel),
                 filesTags := db.filesTags.filter (fun l => l.tagId ∉ toDel) }

/-- The delete set of `cleanupAuthors`: the authors linked to the book
whose total `books_authors` link count is exactly 1 (this book was
their only one). -/
def authorsToDelete (db : Db) (bookId : Nat) : List Nat :=
  ((db.booksAuthors.filter (fun l => l.bookId = bookId)).map (fun l => l.authorId)).filter
    (fun a => (db.booksAuthors.filter (fun l => l.authorId = a)).length = 1)

/-- `cleanupAuthors`: delete the authors of `authorsToDelete`; deleting
an author cascades its links.  An empty delete set issues `id in ()`,
which matches nothing in SQLite. -/
def cleanupAuthors (db : Db) (bookId : Nat) : Db :=
  let toDel := authorsToDelete db bookId
  { db with authors := db.authors.filter (fun a => a.id ∉ toDel),
            booksAuthors := db.booksAuthors.filter (fun l => l.authorId ∉ toDel) }

/-- `deleteBookFromSearch`: remove the book's full-text document. -/
def deleteBookFromSearch (db : Db) (bookId : Nat) : Db :=
  { db with fts := db.fts.filter (fun r => r.docid ≠ bookId) }

/-- `deleteBook`: clean up would-be-orphaned authors, delete the book
row (cascading its remaining links and files) and its search document. -/
def deleteBook (db : Db) (b : Book) : Db :=
  let db1 := cleanupAuthors db b.id
  let deadFiles := (db1.files.filter (fun f => f.bookId = b.id)).map (fun f => f.id)
  let db2 := { db1 with
    books := db1.books.filter (fun r => r.id ≠ b.id),
    booksAuthors := db1.booksAuthors.filter (fun l => l.bookId ≠ b.id),
    files := db1.files.filter (fun f => f.bookId ≠ b.id),
    filesTags := db1.filesTags.filter (fun l => l.fileId ∉ deadFiles) }
  deleteBookFromSearch db2 b.id

/-- `IsLastFile`: look the file up by filename, fetch its book, and
report whether that book has exactly one file.  A missing book is a Go
panic, modelled as an error. -/
def IsLastFile (db : Db) (bf : BookFile) : Except LibError Bool :=
  match db.files.find? (fun f => f.filename = bf.currentFilename) with
  | none => .error .notFound
  | some f =>
    match getBooksByID db [f.bookId] with
    | [b] => .ok (b.files.length == 1)
    | _ => .error .inconsistency

/-- `deleteFile` (the transaction body).  The argument `db` is the
committed pre-transaction state.  `IsLastFile` and, crucially, the
post-delete `lib.GetBooksByID` call run on `lib`, i.e. on a second
connection outside the open transaction, so they see `db` itself, not
the transaction's work-in-progress state: the book record used for the
final reindex still contains the deleted file.  All `tx.*` statements
thread the transaction state.  The `os.Remove` disk step is outside the
database model. -/
def deleteFile (db : Db) (bf : BookFile) : Except LibError Db :=
  match IsLastFile db bf with
  | .error e => .error e
  | .ok last =>
    match db.files.find? (fun f => f.id = bf.id) with
    | none => .error .notFound
    | some fr =>
      let bID := fr.bookId
      let db1 := cleanupTags db bf.id
      let db2 := { db1 with
        files := db1.files.filter (fun f => f.id ≠ bf.id),
        filesTags := db1.filesTags.filter (fun l => l.fileId ≠ bf.id) }
      match getBooksByID db [bID] with
      | [b] =>
        let db3 := if last then deleteBook db2 b else db2
        let db4 := deleteBookFromSearch db3 b.id
        indexBookInSearch db4 b true
      | _ => .error .inconsistency

/-- `DeleteFile` wraps `deleteFile` in one transaction: an error rolls
back (caller keeps `db`), success commits the returned state. -/
def DeleteFile (db : Db) (bf : BookFile) : Except LibError Db :=
  deleteFile db bf

/-- `SearchPaged` (with the FTS row-match predicate as a parameter).
With `limit == 0` the query has no LIMIT/OFFSET clause; otherwise
`limit+moreResultsLimit` rows past `offset` are fetched and the surplus
beyond `limit` is reported as `moreResults`.  The arguments are Go
`int`s; SQLite's treatment of a negative LIMIT (no limit) is not
modelled, the claims only concern `limit = 0` or `limit > 0` with
non-negative offset and cap. -/
def SearchPaged (db : Db) (matchP : FtsRow → Bool) (offset limit moreResultsLimit : Int) :
    List Book × Int :=
  let allIds := (db.fts.filter matchP).map (fun r => r.docid)
  let ids := if limit = 0 then allIds
             else (allIds.drop offset.toNat).take (limit + moreResultsLimit).toNat
  if 0 < limit ∧ limit < (ids.length : Int) then
    (getBooksByID db (ids.take limit.toNat), (ids.length : Int) - limit)
  else
    (getBooksByID db ids, 0)

/-- `Search` delegates to `SearchPaged` with offset, limit and cap all
zero, dropping the `moreResults` count. -/
def Search (db : Db) (matchP : FtsRow → Bool) : List Book :=
  (SearchPaged db matchP 0 0 0).1

/-- `path.Ext`, scanned from the end of the path: the suffix starting
at the final dot in the final slash-separated element, or empty.  The
first argument is the reversed character list, the second the suffix
accumulated so far. -/
def pathExtAux : List Char → List Char → String
  | [], _ => ""
  | c :: rest, acc =>
      if c = '/' then ""
      else if c = '.' then String.mk ('.' :: acc)
      else pathExtAux rest (c :: acc)

/-- `path.Ext`. -/
def pathExt (f : String) : String :=
  pathExtAux f.data.reverse []

/-- `strings.TrimSuffix`. -/
def trimSuffix (s suffix : String) : String :=
  if suffix.data.isSuffixOf s.data then
    String.mk (s.data.take (s.data.length - suffix.data.length))
  else s

/-- `strconv.Itoa` for naturals: the decimal digit string. -/
def natStr (n : Nat) : String :=
  if n = 0 then "0"
  else String.mk (((Nat.digits 10 n).map (fun d => Nat.digitChar d)).reverse)

/-- The `i`-th collision candidate of `GetUniqueName`: the numeric
disambiguator `" (i)"` inserted immediately before the extension. -/
def uniqueCandidate (f : String) (i : Nat) : String :=
  trimSuffix f (pathExt f) ++ " (" ++ natStr i ++ ")" ++ pathExt f

/-- The probe loop of `GetUniqueName`: starting at candidate index `i`,
return the first index whose candidate does not exist.  The fuel
argument makes the recursion structural; `GetUniqueName` supplies
enough fuel that a free candidate is always found first (see
`findFreeIdx_spec`), so this equals the unbounded Go loop. -/
def findFreeIdx (fs : List String) (f : String) : Nat → Nat → Nat
  | 0, i => i
  | fuel + 1, i =>
      if uniqueCandidate f i ∈ fs then findFreeIdx fs f fuel (i + 1) else i

/-- The largest length of a path in the filesystem model. -/
def maxLen (fs : List String) : Nat :=
  fs.foldr (fun s m => max s.length m) 0

/-- `GetUniqueName`, with the filesystem modelled as the list of paths
that exist at call time (`os.Stat` succeeding = membership).  If `f`
exists, probe `" (1)"`, `" (2)"`, … before the extension until a
candidate is unused. -/
def GetUniqueName (fs : List String) (f : String) : String :=
  if f ∈ fs then uniqueCandidate f (findFreeIdx fs f (10 ^ maxLen fs + 1) 1)
  else f

/-! ### Concrete instances used by counterexamples and witnesses -/

/-- C1 counterexample state: book 1 owns files 1 and 2; file 2 has hash
`h2`, so the file id (2) differs from the owning book id (1). -/
def exDb1 : Db :=
  { books := [⟨1, "", "T"⟩],
    files := [⟨1, 1, "epub", "o1", "f1", 3, 3, "h1", "s1"⟩,
              ⟨2, 1, "pdf", "o2", "f2", 4, 4, "h2", "s2"⟩],
    authors := [⟨1, "A"⟩], tags := [], booksAuthors := [⟨1, 1⟩], filesTags := [],
    fts := [⟨1, "A", "", "T", "epub pdf", "", "", "s1 s2"⟩],
    nextBookId := 2, nextFileId := 3, nextAuthorId := 2, nextTagId := 1 }

/-- C1 counterexample import record: a fresh book whose single file
repeats the stored hash `h2`. -/
def exBook1 : Book :=
  ⟨0, "T2", "", ["B"], [⟨0, "pdf", "o3", "f3", 5, 5, "h2", "s3", []⟩]⟩

/-- C2 failing input: book 1 with its single file 1 (tag `fantasy`). -/
def exDb2 : Db :=
  { books := [⟨1, "", "Shining"⟩],
    files := [⟨1, 1, "epub", "orig", "f1", 10, 5, "h1", "s1"⟩],
    authors := [⟨1, "King"⟩], tags := [⟨1, "fantasy"⟩],
    booksAuthors := [⟨1, 1⟩], filesTags := [⟨1, 1⟩],
    fts := [⟨1, "King", "", "Shining", "epub", "fantasy", "", "s1"⟩],
    nextBookId := 2, nextFileId := 2, nextAuthorId := 2, nextTagId := 2 }

/-- C2 failing input: the record of book 1's only file. -/
def exBf2 : BookFile :=
  ⟨1, "epub", "orig", "f1", 10, 5, "h1", "s1", ["fantasy"]⟩

/-- C5 witness state: book 1 `T` (series `s`) by author `A`. -/
def wDb5 : Db :=
  { books := [⟨1, "s", "T"⟩], files := [], authors := [⟨1, "A"⟩], tags := [],
    booksAuthors := [⟨1, 1⟩], filesTags := [],
    fts := [⟨1, "A", "s", "T", "", "", "", ""⟩],
    nextBookId := 2, nextFileId := 1, nextAuthorId := 2, nextTagId := 1 }

/-- C5 witness record: the unchanged title/series/authors of book 1. -/
def wBook5 : Book := ⟨1, "T", "s", ["A"], []⟩

/-- C6 witness state: books 1 `T1` and 2 `T2`, both by author `A`. -/
def wDb6 : Db :=
  { books := [⟨1, "", "T1"⟩, ⟨2, "", "T2"⟩], files := [], authors := [⟨1, "A"⟩],
    tags := [], booksAuthors := [⟨1, 1⟩, ⟨2, 1⟩], filesTags := [],
    fts := [⟨1, "A", "", "T1", "", "", "", ""⟩, ⟨2, "A", "", "T2", "", "", "", ""⟩],
    nextBookId := 3, nextFileId := 1, nextAuthorId := 2, nextTagId := 1 }

/-- C6 witness record: renaming book 1 to `T2`, colliding with book 2. -/
def wBook6 : Book := ⟨1, "T2", "", ["A"], []⟩

/-- C8 witness file record: a new `pdf` file with tag `t2`. -/
def wBf8 : BookFile := ⟨0, "pdf", "o2", "f2", 7, 7, "h2", "s2", ["t2"]⟩

/-- C8 witness import record: same title `T` and author list `A` as
the stored book. -/
def wBook8 : Book := ⟨0, "T", "", ["A"], [wBf8]⟩

/-- C8 witness state: book 1 `T` by `A` with one `epub` file (tag
`t1`) and its search document. -/
def wDb8 : Db :=
  { books := [⟨1, "", "T"⟩],
    files := [⟨1, 1, "epub", "o1", "f1", 3, 3, "h1", "s1"⟩],
    authors := [⟨1, "A"⟩], tags := [⟨1, "t1"⟩],
    booksAuthors := [⟨1, 1⟩], filesTags := [⟨1, 1⟩],
    fts := [⟨1, "A", "", "T", "epub", "t1", "", "s1"⟩],
    nextBookId := 2, nextFileId := 2, nextAuthorId := 2, nextTagId := 2 }

/-- C9 witness state: three indexed books. -/
def wDb9 : Db :=
  { books := [⟨1, "", "A"⟩, ⟨2, "", "B"⟩, ⟨3, "", "C"⟩], files := [], authors := [],
    tags := [], booksAuthors := [], filesTags := [],
    fts := [⟨1, "", "", "A", "", "", "", ""⟩, ⟨2, "", "", "B", "", "", "", ""⟩,
            ⟨3, "", "", "C", "", "", "", ""⟩],
    nextBookId := 4, nextFileId := 1, nextAuthorId := 1, nextTagId := 1 }

/-- C4 witness state: book 1 `X` (authors `A`, `B`) with file 1 (tags
`t1`, `t2`); book 2 `Y` (author `B`) with file 2 (tag `t2`).  Author
`A` and tag `t1` have single links, `B` and `t2` are shared. -/
def wDb4 : Db :=
  { books := [⟨1, "", "X"⟩, ⟨2, "", "Y"⟩],
    files := [⟨1, 1, "epub", "o1", "f1", 1, 1, "h1", "s1"⟩,
              ⟨2, 2, "pdf", "o2", "f2", 2, 2, "h2", "s2"⟩],
    authors := [⟨1, "A"⟩, ⟨2, "B"⟩], tags := [⟨1, "t1"⟩, ⟨2, "t2"⟩],
    booksAuthors := [⟨1, 1⟩, ⟨1, 2⟩, ⟨2, 2⟩],
    filesTags := [⟨1, 1⟩, ⟨1, 2⟩, ⟨2, 2⟩],
    fts := [⟨1, "A & B", "", "X", "epub", "t1 t2", "", "s1"⟩,
            ⟨2, "B", "", "Y", "pdf", "t2", "", "s2"⟩],
    nextBookId := 3, nextFileId := 3, nextAuthorId := 3, nextTagId := 3 }

/-- C4 witness file record: book 1's only file. -/
def wBf4 : BookFile := ⟨1, "epub", "o1", "f1", 1, 1, "h1", "s1", ["t1", "t2"]⟩

/-- The transaction state of `mergeBooks` just before the target's
document is rebuilt: files reassigned to `ids[0]`, absorbed books
deleted with their cascades, all merged documents deleted. -/
def mergeMid (db : Db) (i0 : Nat) (rest : List Nat) : Db :=
  { db with
    books := db.books.filter (fun r => r.id ∉ rest),
    booksAuthors := db.booksAuthors.filter (fun l => l.bookId ∉ rest),
    files := (db.files.map (fun f =>
      if f.bookId ∈ rest then { f with bookId := i0 } else f)).filter
      (fun f => f.bookId ∉ rest),
    filesTags := db.filesTags.filter (fun l => l.fileId ∉
      ((db.files.map (fun f =>
        if f.bookId ∈ rest then { f with bookId := i0 } else f)).filter
        (fun f => f.bookId ∈ rest)).map (fun f => f.id)),
    fts := (db.fts.filter (fun r => r.docid ∉ rest)).filter
      (fun r => r.docid ≠ i0) }

/-- C3 witness state: book 1 (author `A`, file 1 `epub`) and book 2
(author `B`, file 2 `pdf` with tag `t1`), both indexed. -/
def wDb3 : Db :=
  { books := [⟨1, "s1", "T1"⟩, ⟨2, "s2", "T2"⟩],
    files := [⟨1, 1, "epub", "o1", "f1", 1, 1, "h1", "s1"⟩,
              ⟨2, 2, "pdf", "o2", "f2", 2, 2, "h2", "s2"⟩],
    authors := [⟨1, "A"⟩, ⟨2, "B"⟩], tags := [⟨1, "t1"⟩],
    booksAuthors := [⟨1, 1⟩, ⟨2, 2⟩], filesTags := [⟨2, 1⟩],
    fts := [⟨1, "A", "s1", "T1", "epub", "", "", "s1"⟩,
            ⟨2, "B", "s2", "T2", "pdf", "t1", "", "s2"⟩],
    nextBookId := 3, nextFileId := 3, nextAuthorId := 3, nextTagId := 2 }

/-! ### Claim theorems -/

/-- C10: `Search(terms)` returns exactly the books of
`SearchPaged(terms, 0, 0, 0)`; and with `limit = 0` `SearchPaged`
returns every matching book with `moreResults = 0`, ignoring the
`offset` and `moreResultsLimit` arguments entirely. -/
theorem search_delegates_and_limit_zero_spec (db : Db) (matchP : FtsRow → Bool)
    (offset moreResultsLimit : Int) :
    SearchPaged db matchP offset 0 moreResultsLimit
      = (getBooksByID db ((db.fts.filter matchP).map (fun r => r.docid)), 0) ∧
    Search db matchP = (SearchPaged db matchP 0 0 0).1 := by
  refine ⟨?_, rfl⟩
  simp [SearchPaged]

/-- C1 counterexample: importing a file whose hash `h2` is already
stored fails with the duplicate error carrying id 2, the id of the
conflicting `files` row, although the conflicting book's id is 1 —
the error does not carry the conflicting book's ID. -/
theorem importBook_dup_carries_file_id_counterexample :
    ImportBook exDb1 exBook1 = Except.error (LibError.duplicate 2) ∧
    (∀ f ∈ exDb1.files, f.hash = "h2" → f.bookId = 1) ∧ (2 : Nat) ≠ 1 := by
  decide

/-- C1 (amended): when some stored `files` row has the imported file's
content hash, `ImportBook` fails with the duplicate error carrying the
conflicting file row's id (the `id` column scanned by the duplicate
query), and — the error being raised before any insert, with rollback —
no book, author, tag, file or search-document row is added or
changed. -/
theorem importBook_duplicate_hash_aborts (db : Db) (book : Book) (bf : BookFile)
    (f : FileRow) (hfiles : book.files = [bf])
    (hfind : db.files.find? (fun r => r.hash = bf.hash) = some f) :
    ImportBook db book = Except.error (LibError.duplicate f.id) := by
  simp [ImportBook, hfiles, hfind]

/-- Witness for C1's amended theorem at the concrete duplicate state. -/
theorem importBook_duplicate_hash_aborts_witness :
    ImportBook exDb1 exBook1 = Except.error (LibError.duplicate 2) :=
  importBook_duplicate_hash_aborts exDb1 exBook1
    ⟨0, "pdf", "o3", "f3", 5, 5, "h2", "s3", []⟩
    ⟨2, 1, "pdf", "o2", "f2", 4, 4, "h2", "s2"⟩ rfl (by decide)

/-- C2 (code bug): deleting the last file of book 1 commits, removes
the book row, but then re-inserts a search document for the deleted
book built from the pre-delete state: the final `books_fts` table still
holds a row for docid 1 carrying the deleted file's extension, tags and
source, because the reindex re-reads the book through a second
connection (`lib.GetBooksByID`) that does not see the transaction's
deletes. -/
theorem deleteFile_reindexes_deleted_book_from_stale_state :
    DeleteFile exDb2 exBf2 = Except.ok
      { books := [], files := [], authors := [], tags := [],
        booksAuthors := [], filesTags := [],
        fts := [⟨1, "King", "", "Shining", "epub", "fantasy", "", "s1"⟩],
        nextBookId := 2, nextFileId := 2, nextAuthorId := 2, nextTagId := 2 } := by
  decide

/-- Every path in the filesystem model is at most `maxLen` long. -/
theorem length_le_maxLen {fs : List String} {s : String} (h : s ∈ fs) :
    s.length ≤ maxLen fs := by
  induction fs with
  | nil => cases h
  | cons a t ih =>
      rcases List.mem_cons.1 h with rfl | h
      · exact le_max_left _ _
      · exact le_trans (ih h) (le_max_right _ _)

/-- The decimal string of `10 ^ k` has `k + 1` characters. -/
theorem natStr_pow_length (k : Nat) : (natStr (10 ^ k)).length = k + 1 := by
  have h0 : (10 : Nat) ^ k ≠ 0 := pow_ne_zero k (by norm_num)
  unfold natStr
  rw [if_neg h0]
  show (((Nat.digits 10 (10 ^ k)).map _).reverse).length = k + 1
  rw [List.length_reverse, List.length_map,
    Nat.digits_len 10 _ (by norm_num) h0, Nat.log_pow (by norm_num)]

/-- A candidate name is at least as long as its numeric infix. -/
theorem natStr_length_le_uniqueCandidate (f : String) (n : Nat) :
    (natStr n).length ≤ (uniqueCandidate f n).length := by
  unfold uniqueCandidate
  simp only [String.length_append]
  omega

/-- The candidate indexed by `10 ^ maxLen fs` is longer than every
existing path, hence free. -/
theorem uniqueCandidate_pow_not_mem (fs : List String) (f : String) :
    uniqueCandidate f (10 ^ maxLen fs) ∉ fs := by
  intro hmem
  have h1 := length_le_maxLen hmem
  have h2 := natStr_length_le_uniqueCandidate f (10 ^ maxLen fs)
  rw [natStr_pow_length] at h2
  omega

/-- Correctness of the probe loop: if some candidate in fuel range is
free, the loop stops exactly at the first free index. -/
theorem findFreeIdx_spec (fs : List String) (f : String) :
    ∀ fuel i, (∃ m, i ≤ m ∧ m < i + fuel ∧ uniqueCandidate f m ∉ fs) →
      i ≤ findFreeIdx fs f fuel i ∧
      uniqueCandidate f (findFreeIdx fs f fuel i) ∉ fs ∧
      ∀ m, i ≤ m → m < findFreeIdx fs f fuel i → uniqueCandidate f m ∈ fs := by
  intro fuel
  induction fuel with
  | zero =>
      rintro i ⟨m, h1, h2, -⟩
      omega
  | succ fuel ih =>
      rintro i ⟨m, h1, h2, h3⟩
      by_cases hc : uniqueCandidate f i ∈ fs
      · rw [findFreeIdx, if_pos hc]
        have hmi : i + 1 ≤ m := by
          rcases Nat.eq_or_lt_of_le h1 with rfl | h
          · exact absurd hc h3
          · exact h
        obtain ⟨g1, g2, g3⟩ := ih (i + 1) ⟨m, hmi, by omega, h3⟩
        refine ⟨by omega, g2, ?_⟩
        intro m' hm1 hm2
        rcases Nat.eq_or_lt_of_le hm1 with rfl | h
        · exact hc
        · exact g3 m' h hm2
      · rw [findFreeIdx, if_neg hc]
        exact ⟨le_refl i, hc, fun m' h1' h2' =>
          (Nat.lt_irrefl i (Nat.lt_of_le_of_lt h1' h2')).elim⟩

/-- C7: `GetUniqueName(f)` never returns an existing path; it returns
`f` itself when `f` does not exist, and otherwise the candidate with
the disambiguator `" (n)"` inserted before the extension for the least
n = 1, 2, 3, … whose candidate does not exist (all smaller indices
collide, so successive collisions walk strictly increasing suffixes). -/
theorem getUniqueName_spec (fs : List String) (f : String) :
    GetUniqueName fs f ∉ fs ∧
    (f ∉ fs → GetUniqueName fs f = f) ∧
    (f ∈ fs → ∃ n, 1 ≤ n ∧ GetUniqueName fs f = uniqueCandidate f n ∧
      uniqueCandidate f n ∉ fs ∧
      ∀ m, 1 ≤ m → m < n → uniqueCandidate f m ∈ fs) := by
  by_cases hf : f ∈ fs
  · have hex : ∃ m, 1 ≤ m ∧ m < 1 + (10 ^ maxLen fs + 1) ∧
        uniqueCandidate f m ∉ fs := by
      refine ⟨10 ^ maxLen fs, Nat.pos_pow_of_pos _ (by norm_num), ?_,
        uniqueCandidate_pow_not_mem fs f⟩
      have := Nat.pos_pow_of_pos (maxLen fs) (show 0 < 10 by norm_num)
      omega
    obtain ⟨h1, h2, h3⟩ := findFreeIdx_spec fs f (10 ^ maxLen fs + 1) 1 hex
    have hgu : GetUniqueName fs f
        = uniqueCandidate f (findFreeIdx fs f (10 ^ maxLen fs + 1) 1) := by
      simp [GetUniqueName, hf]
    refine ⟨by rw [hgu]; exact h2, fun h => absurd hf h, fun _ => ⟨_, h1, hgu, h2, h3⟩⟩
  · have hgu : GetUniqueName fs f = f := by simp [GetUniqueName, hf]
    exact ⟨by rw [hgu]; exact hf, fun _ => hgu, fun h => absurd h hf⟩

/-- Witness for C7 at a concrete colliding filesystem: `b.txt` and
`b (1).txt` exist, so the first free candidate has index 2. -/
theorem getUniqueName_spec_witness :
    ("b.txt" ∈ ["b.txt", "b (1).txt"]) ∧
    (∃ n, 1 ≤ n ∧
      GetUniqueName ["b.txt", "b (1).txt"] "b.txt" = uniqueCandidate "b.txt" n ∧
      uniqueCandidate "b.txt" n ∉ ["b.txt", "b (1).txt"] ∧
      ∀ m, 1 ≤ m → m < n → uniqueCandidate "b.txt" m ∈ ["b.txt", "b (1).txt"]) :=
  ⟨by decide, (getUniqueName_spec ["b.txt", "b (1).txt"] "b.txt").2.2 (by decide)⟩

/-- A singleton filter result is a member satisfying the predicate. -/
theorem of_filter_eq_singleton {α : Type} {l : List α} {p : α → Bool} {a : α}
    (h : l.filter p = [a]) : a ∈ l ∧ p a = true := by
  have ha : a ∈ l.filter p := by rw [h]; exact List.mem_singleton_self a
  exact ⟨(List.mem_filter.1 ha).1, (List.mem_filter.1 ha).2⟩

/-- `getBooksByID` on a one-element id list whose book row is unique. -/
theorem getBooksByID_singleton (db : Db) (i : Nat) (br : BookRow)
    (h : db.books.filter (fun r => r.id = i) = [br]) :
    getBooksByID db [i] = [toBook db br] := by
  unfold getBooksByID
  rw [List.filter_congr (fun x _ => by simp :
    ∀ x ∈ db.books, (decide (x.id ∈ [i])) = (decide (x.id = i))), h]
  rfl

/-- When the title-and-authors lookup returns an id, some book row has
that id, the searched title, and exactly the searched author list. -/
theorem getBookIDByTitleAndAuthors_some (db : Db) (title : String)
    (authors : List String) (i : Nat)
    (h : getBookIDByTitleAndAuthors db title authors = some i) :
    ∃ b ∈ db.books, b.id = i ∧ b.title = title ∧ authorsOfBook db i = authors := by
  unfold getBookIDByTitleAndAuthors at h
  simp only [Option.map_eq_some'] at h
  obtain ⟨p, hfind, hp1⟩ := h
  have hpred := List.find?_some hfind
  have hmem := List.mem_of_find?_eq_some hfind
  simp only [List.mem_filterMap, List.mem_map, List.mem_filter] at hmem
  obtain ⟨j, ⟨b, ⟨hbmem, hbtitle⟩, hbid⟩, hjeq⟩ := hmem
  by_cases hemp : (authorsOfBook db j).isEmpty
  · rw [if_pos hemp] at hjeq; cases hjeq
  · rw [if_neg hemp] at hjeq
    injection hjeq with hjeq
    subst hjeq
    simp only [authorsEqual, beq_iff_eq] at hpred
    have hji : j = i := hp1
    subst hji
    exact ⟨b, hbmem, hbid, by simpa using hbtitle, hpred.symm⟩

/-- C5: `UpdateBook` with an unchanged title, unchanged author
sequence, and (when `updateSeries`) unchanged series returns success
and leaves the whole store — every table and the search document —
unchanged (the transaction is rolled back without a single write). -/
theorem updateBook_noop_spec (db : Db) (book : Book) (updateSeries : Bool)
    (br : BookRow)
    (hex : db.books.filter (fun r => r.id = book.id) = [br])
    (htitle : book.title = br.title)
    (hauth : book.authors = authorsOfBook db book.id)
    (hser : updateSeries = true → book.series = br.series) :
    UpdateBook db book updateSeries = Except.ok db := by
  have hid : br.id = book.id := by
    simpa using (of_filter_eq_singleton hex).2
  have hg := getBooksByID_singleton db book.id br hex
  unfold UpdateBook
  split
  · next heq =>
      rw [hg] at heq
      cases heq
  · next eb rest heq =>
      rw [hg] at heq
      injection heq with heb hrest
      subst heb
      have hcond : ((toBook db br).title == book.title
          && authorsEqual (toBook db br).authors book.authors
          && (!updateSeries || (toBook db br).series == book.series)) = true := by
        simp only [toBook, authorsEqual, Bool.and_eq_true, beq_iff_eq,
          Bool.or_eq_true, Bool.not_eq_true']
        refine ⟨⟨htitle.symm, by rw [hid, ← hauth]⟩, ?_⟩
        cases updateSeries with
        | false => exact Or.inl rfl
        | true => exact Or.inr (by simpa using (hser rfl).symm)
      rw [if_pos hcond]

/-- C6: `UpdateBook` changing a book's (title, authors) to a pair held
by a different existing book fails with `BookExistsError` carrying that
book's id: it never merges, and the transaction is rolled back, leaving
the store unchanged.  The second conjunct certifies that the reported
id really is a book holding the target title and author sequence. -/
theorem updateBook_collision_spec (db : Db) (book : Book) (updateSeries : Bool)
    (br : BookRow) (eid : Nat)
    (hex : db.books.filter (fun r => r.id = book.id) = [br])
    (hch : ¬(br.title = book.title ∧ authorsOfBook db book.id = book.authors))
    (hfound : getBookIDByTitleAndAuthors db book.title book.authors = some eid)
    (hne : eid ≠ book.id) :
    UpdateBook db book updateSeries = Except.error (LibError.bookExists eid) ∧
    ∃ b ∈ db.books, b.id = eid ∧ b.title = book.title ∧
      authorsOfBook db eid = book.authors := by
  refine ⟨?_, getBookIDByTitleAndAuthors_some db book.title book.authors eid hfound⟩
  have hid : br.id = book.id := by
    simpa using (of_filter_eq_singleton hex).2
  have hg := getBooksByID_singleton db book.id br hex
  unfold UpdateBook
  split
  · next heq =>
      rw [hg] at heq
      cases heq
  · next eb rest heq =>
      rw [hg] at heq
      injection heq with heb hrest
      subst heb
      have hcond : ¬(((toBook db br).title == book.title
          && authorsEqual (toBook db br).authors book.authors
          && (!updateSeries || (toBook db br).series == book.series)) = true) := by
        intro hc
        simp only [toBook, authorsEqual, Bool.and_eq_true, beq_iff_eq,
          Bool.or_eq_true, Bool.not_eq_true'] at hc
        exact hch ⟨hc.1.1, by rw [← hid]; exact hc.1.2⟩
      rw [if_neg hcond, hfound]
      show (if book.id ≠ eid then Except.error (LibError.bookExists eid) else _)
          = Except.error (LibError.bookExists eid)
      rw [if_pos (Ne.symm hne)]

/-- Witness for C5 at the concrete no-op update of book 1. -/
theorem updateBook_noop_spec_witness :
    UpdateBook wDb5 wBook5 true = Except.ok wDb5 :=
  updateBook_noop_spec wDb5 wBook5 true ⟨1, "s", "T"⟩
    (by decide) (by decide) (by decide) (fun _ => by decide)

/-- Witness for C6 at the concrete title collision between books 1
and 2. -/
theorem updateBook_collision_spec_witness :
    UpdateBook wDb6 wBook6 false = Except.error (LibError.bookExists 2) ∧
    ∃ b ∈ wDb6.books, b.id = 2 ∧ b.title = wBook6.title ∧
      authorsOfBook wDb6 2 = wBook6.authors :=
  updateBook_collision_spec wDb6 wBook6 false ⟨1, "", "T1"⟩ 2
    (by decide) (by decide) (by decide) (by decide)

/-- `insertTag` only touches the `tags` and `files_tags` tables. -/
theorem insertTag_preserves (db : Db) (fid : Nat) (t : String) :
    (insertTag db fid t).books = db.books ∧
    (insertTag db fid t).authors = db.authors ∧
    (insertTag db fid t).booksAuthors = db.booksAuthors ∧
    (insertTag db fid t).files = db.files ∧
    (insertTag db fid t).fts = db.fts ∧
    (insertTag db fid t).nextFileId = db.nextFileId := by
  unfold insertTag linkFileTag
  cases db.tags.find? (fun a => a.name = t) <;> dsimp only <;> split <;>
    exact ⟨rfl, rfl, rfl, rfl, rfl, rfl⟩

/-- Folding `insertTag` over a tag list only touches the `tags` and
`files_tags` tables. -/
theorem insertTag_foldl_preserves (fid : Nat) :
    ∀ (l : List String) (db : Db),
      ((l.foldl (fun d t => insertTag d fid t) db).books = db.books ∧
       (l.foldl (fun d t => insertTag d fid t) db).authors = db.authors ∧
       (l.foldl (fun d t => insertTag d fid t) db).booksAuthors = db.booksAuthors ∧
       (l.foldl (fun d t => insertTag d fid t) db).files = db.files ∧
       (l.foldl (fun d t => insertTag d fid t) db).fts = db.fts ∧
       (l.foldl (fun d t => insertTag d fid t) db).nextFileId = db.nextFileId) := by
  intro l
  induction l with
  | nil => intro db; exact ⟨rfl, rfl, rfl, rfl, rfl, rfl⟩
  | cons t ts ih =>
      intro db
      have h1 := insertTag_preserves db fid t
      have h2 := ih (insertTag db fid t)
      simp only [List.foldl_cons]
      refine ⟨?_, ?_, ?_, ?_, ?_, ?_⟩
      · rw [h2.1, h1.1]
      · rw [h2.2.1, h1.2.1]
      · rw [h2.2.2.1, h1.2.2.1]
      · rw [h2.2.2.2.1, h1.2.2.2.1]
      · rw [h2.2.2.2.2.1, h1.2.2.2.2.1]
      · rw [h2.2.2.2.2.2, h1.2.2.2.2.2]

/-- C8: importing a file whose title and author sequence exactly match
an existing book (order-sensitive: `getBookIDByTitleAndAuthors` only
succeeds on an equal sequence) creates no book, author or author-link
row: the file row is inserted under the existing book's id, and the
existing search document's tags, extension and source strings are each
extended by a space and the new file's space-joined values, while its
author, series and title fields are untouched. -/
theorem importBook_existing_book_spec (db : Db) (book : Book) (bf : BookFile)
    (bid : Nat) (doc : FtsRow)
    (hfiles : book.files = [bf])
    (hnohash : db.files.find? (fun r => r.hash = bf.hash) = none)
    (hfound : getBookIDByTitleAndAuthors db book.title book.authors = some bid)
    (hnofn : db.files.any (fun f => f.filename = bf.currentFilename) = false)
    (hdoc : db.fts.find? (fun r => r.docid = bid) = some doc) :
    ∃ db', ImportBook db book = Except.ok db' ∧
      db'.books = db.books ∧
      db'.authors = db.authors ∧
      db'.booksAuthors = db.booksAuthors ∧
      db'.files = db.files ++ [importedFileRow db bid bf] ∧
      db'.fts = db.fts.map (fun r =>
        if r.docid = bid then
          { r with tags := doc.tags ++ " " ++ String.intercalate " " bf.tags,
                   extension := doc.extension ++ " " ++ bf.extension,
                   source := doc.source ++ " " ++ bf.source }
        else r) := by
  have hdocid : doc.docid = bid := by simpa using List.find?_some hdoc
  obtain ⟨hB, hA, hBA, hF, hFTS, hN⟩ := insertTag_foldl_preserves db.nextFileId bf.tags
    { db with files := db.files ++ [importedFileRow db bid bf],
              nextFileId := db.nextFileId + 1 }
  have hfind3 : (bf.tags.foldl (fun d t => insertTag d db.nextFileId t)
      { db with files := db.files ++ [importedFileRow db bid bf],
                nextFileId := db.nextFileId + 1 }).fts.find?
        (fun r => r.docid = bid) = some doc := by
    rw [hFTS]; exact hdoc
  have hrun : ImportBook db book = Except.ok
      { (bf.tags.foldl (fun d t => insertTag d db.nextFileId t)
          { db with files := db.files ++ [importedFileRow db bid bf],
                    nextFileId := db.nextFileId + 1 }) with
        fts := (bf.tags.foldl (fun d t => insertTag d db.nextFileId t)
          { db with files := db.files ++ [importedFileRow db bid bf],
                    nextFileId := db.nextFileId + 1 }).fts.map (fun r =>
            if r.docid = doc.docid then
              { r with tags := doc.tags ++ " " ++ String.intercalate " " bf.tags,
                       extension := doc.extension ++ " " ++ bf.extension,
                       source := doc.source ++ " " ++ bf.source }
            else r) } := by
    simp only [ImportBook, hfiles, hnohash, hfound, hnofn, Option.isNone_some,
      indexBookInSearch, hfind3, Bool.false_eq_true, if_false, List.length_cons,
      List.length_nil, ne_eq, not_true_eq_false, and_false, if_true,
      reduceCtorEq, zero_add]
  refine ⟨_, hrun, ?_, ?_, ?_, ?_, ?_⟩
  · simpa using hB
  · simpa using hA
  · simpa using hBA
  · simpa using hF
  · show (_ : Db).fts.map _ = _
    rw [hFTS]
    simp only [hdocid]

/-- Witness for C8 at a concrete second-file import into book 1. -/
theorem importBook_existing_book_spec_witness :
    ∃ db', ImportBook wDb8 wBook8 = Except.ok db' ∧
      db'.books = wDb8.books ∧
      db'.authors = wDb8.authors ∧
      db'.booksAuthors = wDb8.booksAuthors ∧
      db'.files = wDb8.files ++ [importedFileRow wDb8 1 wBf8] ∧
      db'.fts = wDb8.fts.map (fun r =>
        if r.docid = 1 then
          { r with tags := "t1" ++ " " ++ String.intercalate " " wBf8.tags,
                   extension := "epub" ++ " " ++ wBf8.extension,
                   source := "s1" ++ " " ++ wBf8.source }
        else r) :=
  importBook_existing_book_spec wDb8 wBook8 wBf8 1 ⟨1, "A", "", "T", "epub", "t1", "", "s1"⟩
    rfl (by decide) (by decide) (by decide) (by decide)

/-- `getBooksByID` returns at most one book per requested id (book ids
are a primary key, hence `Nodup`). -/
theorem getBooksByID_length_le (db : Db) (ids : List Nat)
    (h : (db.books.map (fun r => r.id)).Nodup) :
    (getBooksByID db ids).length ≤ ids.length := by
  unfold getBooksByID
  rw [List.length_map]
  have hsub : ((db.books.filter (fun r => r.id ∈ ids)).map (fun r => r.id)) ⊆ ids := by
    intro x hx
    obtain ⟨r, hr, rfl⟩ := List.mem_map.1 hx
    simpa using (List.mem_filter.1 hr).2
  have hnd : ((db.books.filter (fun r => r.id ∈ ids)).map (fun r => r.id)).Nodup :=
    List.Nodup.sublist (List.Sublist.map _ (List.filter_sublist _)) h
  have := (List.subperm_of_subset hnd hsub).length_le
  simpa using this

/-- C9: with `offset ≥ 0`, `limit > 0`, `moreResultsLimit ≥ 0`,
`SearchPaged` returns the matches after skipping the first `offset`,
at most `limit` of them, and `moreResults` is the number of further
matches found by the `limit+moreResultsLimit` over-fetch, i.e. the
number of matches beyond `offset+limit` capped at `moreResultsLimit`. -/
theorem searchPaged_spec (db : Db) (matchP : FtsRow → Bool)
    (offset limit moreResultsLimit : Int)
    (ho : 0 ≤ offset) (hl : 0 < limit) (hk : 0 ≤ moreResultsLimit)
    (hnd : (db.books.map (fun r => r.id)).Nodup) :
    (SearchPaged db matchP offset limit moreResultsLimit).1
      = getBooksByID db ((((db.fts.filter matchP).map (fun r => r.docid)).drop
          offset.toNat).take limit.toNat) ∧
    (SearchPaged db matchP offset limit moreResultsLimit).1.length ≤ limit.toNat ∧
    (SearchPaged db matchP offset limit moreResultsLimit).2
      = ((min (((db.fts.filter matchP).map (fun r => r.docid)).length
            - offset.toNat - limit.toNat) moreResultsLimit.toNat : Nat) : Int) ∧
    (SearchPaged db matchP offset limit moreResultsLimit).2 ≤ moreResultsLimit := by
  have hlne : ¬(limit = 0) := by omega
  have htn : (limit + moreResultsLimit).toNat = limit.toNat + moreResultsLimit.toNat :=
    Int.toNat_add (le_of_lt hl) hk
  have hlim : ((limit.toNat : Nat) : Int) = limit := Int.toNat_of_nonneg (le_of_lt hl)
  have hkk : ((moreResultsLimit.toNat : Nat) : Int) = moreResultsLimit :=
    Int.toNat_of_nonneg hk
  set m := (db.fts.filter matchP).map (fun r => r.docid) with hmdef
  set o := offset.toNat with hodef
  set l := limit.toNat with hldef
  set k := moreResultsLimit.toNat with hkdef
  have hlen : ((m.drop o).take (l + k)).length = min (l + k) (m.length - o) := by
    simp [List.length_take, List.length_drop]
  have hmain : SearchPaged db matchP offset limit moreResultsLimit
      = (getBooksByID db ((m.drop o).take l),
         ((min (m.length - o - l) k : Nat) : Int)) := by
    simp only [SearchPaged, if_neg hlne, htn, ← hmdef, ← hodef, ← hldef, ← hkdef]
    by_cases hc : 0 < limit ∧ limit < ((((m.drop o).take (l + k)).length : Nat) : Int)
    · rw [if_pos hc]
      have hc2 : l < ((m.drop o).take (l + k)).length := by
        have := hc.2
        omega
      have h1 : ((m.drop o).take (l + k)).take l = (m.drop o).take l := by
        rw [List.take_take, min_eq_left (by omega)]
      have h2 : ((((m.drop o).take (l + k)).length : Nat) : Int) - limit
          = ((min (m.length - o - l) k : Nat) : Int) := by
        rw [hlen] at hc2 ⊢
        rw [← hlim]
        have h3 : min (l + k) (m.length - o) - l = min (m.length - o - l) k := by
          rcases Nat.le_total (l + k) (m.length - o) with h | h
          · rw [Nat.min_eq_left h, Nat.min_eq_right (by omega)]
            try omega
          · rw [Nat.min_eq_right h, Nat.min_eq_left (by omega)]
            try omega
        omega
      rw [h1, h2]
    · rw [if_neg hc]
      have hc3 : ((m.drop o).take (l + k)).length ≤ l := by
        rcases Decidable.not_and_iff_or_not.1 hc with h | h
        · omega
        · have h' : ((((m.drop o).take (l + k)).length : Nat) : Int) ≤ limit := by omega
          omega
      have h1 : (m.drop o).take (l + k) = (m.drop o).take l := by
        by_cases hk0 : k = 0
        · simp [hk0]
        · have hdl : (m.drop o).length ≤ l := by
            rw [hlen] at hc3
            rcases Nat.le_total (l + k) (m.length - o) with h | h
            · rw [Nat.min_eq_left h] at hc3
              omega
            · rw [Nat.min_eq_right h] at hc3
              simpa [List.length_drop] using hc3
          rw [List.take_of_length_le hdl, List.take_of_length_le (by omega)]
      have h2 : (0 : Int) = ((min (m.length - o - l) k : Nat) : Int) := by
        rw [hlen] at hc3
        have : min (m.length - o - l) k = 0 := by
          rcases Nat.le_total (l + k) (m.length - o) with h | h
          · rw [Nat.min_eq_left h] at hc3
            have : k = 0 := by omega
            simp [this]
          · rw [Nat.min_eq_right h] at hc3
            have : m.length - o - l = 0 := by omega
            simp [this]
        simp [this]
      rw [h1, ← h2]
  refine ⟨by rw [hmain], ?_, by rw [hmain], ?_⟩
  · rw [hmain]
    exact le_trans (getBooksByID_length_le db _ hnd) (List.length_take_le _ _)
  · rw [hmain]
    rw [← hkk]
    exact Nat.cast_le.mpr (Nat.min_le_right _ _)

/-- Witness for C9: all three books match, `offset = limit =
moreResultsLimit = 1`, so page two holds book 2 and one more match is
reported. -/
theorem searchPaged_spec_witness :
    (SearchPaged wDb9 (fun _ => true) 1 1 1).1 = getBooksByID wDb9 [2] ∧
    (SearchPaged wDb9 (fun _ => true) 1 1 1).2 = 1 := by
  have h := searchPaged_spec wDb9 (fun _ => true) 1 1 1
    (by decide) (by decide) (by decide) (by decide)
  exact ⟨by rw [h.1]; decide, by rw [h.2.2.1]; decide⟩

/-- `cleanupTags` written without the empty-set shortcut (filtering by
an empty delete set is the identity). -/
theorem cleanupTags_eq (db : Db) (fileId : Nat) :
    cleanupTags db fileId = { db with
      tags := db.tags.filter (fun t => t.id ∉ tagsToDelete db fileId),
      filesTags := db.filesTags.filter (fun l => l.tagId ∉ tagsToDelete db fileId) } := by
  by_cases h : (tagsToDelete db fileId).isEmpty = true
  · simp only [cleanupTags, if_pos h]
    rw [List.isEmpty_iff.1 h]
    simp
  · simp only [cleanupTags, if_neg h]

/-- `indexBookInSearch` with `createNew` on a book with at least one
file: append one document aggregating the book's fields. -/
theorem indexBookInSearch_createNew (db : Db) (b : Book) (f0 : BookFile)
    (fs : List BookFile) (h : b.files = f0 :: fs) :
    indexBookInSearch db b true = Except.ok { db with fts := db.fts ++ [{
      docid := b.id,
      author := String.intercalate " & " b.authors,
      series := b.series, title := b.title,
      extension := String.intercalate " " (b.files.map (fun f => f.extension)),
      tags := String.intercalate " " (b.files.map (fun f => f.tags)).flatten,
      filename := "",
      source := String.intercalate " " (b.files.map (fun f => f.source)) }] } := by
  unfold indexBookInSearch
  rw [if_neg (by simp)]
  split
  · next heq => rw [h] at heq; cases heq
  · next bf rest heq => rfl

/-- A `books_authors` row with given fields is present iff some member
has those fields. -/
theorem mem_barow_iff (ls : List BARow) (b a : Nat) :
    ((⟨b, a⟩ : BARow) ∈ ls) ↔ ∃ l ∈ ls, l.bookId = b ∧ l.authorId = a := by
  constructor
  · intro h
    exact ⟨⟨b, a⟩, h, rfl, rfl⟩
  · rintro ⟨⟨b', a'⟩, hmem, h1, h2⟩
    dsimp only at h1 h2
    subst h1
    subst h2
    exact hmem

/-- A `files_tags` row with given fields is present iff some member has
those fields. -/
theorem mem_ftrow_iff (ls : List FTRow) (f t : Nat) :
    ((⟨f, t⟩ : FTRow) ∈ ls) ↔ ∃ l ∈ ls, l.fileId = f ∧ l.tagId = t := by
  constructor
  · intro h
    exact ⟨⟨f, t⟩, h, rfl, rfl⟩
  · rintro ⟨⟨f', t'⟩, hmem, h1, h2⟩
    dsimp only at h1 h2
    subst h1
    subst h2
    exact hmem

/-- C4: deleting the only file of its book deletes the File row and
the Book row; every Author whose total book-link count was exactly 1
(this book was its only one) is deleted while Authors linked elsewhere
survive; and every Tag whose total file-link count was exactly 1 (only
the deleted file used it) is deleted — counted before the file row is
removed, which is why the counts in the characterisation refer to the
pre-state — while Tags used by other files survive. -/
theorem deleteFile_lastFile_cleanup_spec (db : Db) (bf : BookFile)
    (fr : FileRow) (br : BookRow)
    (hfr1 : db.files.find? (fun f => f.filename = bf.currentFilename) = some fr)
    (hfr2 : db.files.find? (fun f => f.id = bf.id) = some fr)
    (hfrid : fr.id = bf.id)
    (honly : db.files.filter (fun f => f.bookId = fr.bookId) = [fr])
    (hbr : db.books.filter (fun r => r.id = fr.bookId) = [br]) :
    ∃ db', DeleteFile db bf = Except.ok db' ∧
      db'.books = db.books.filter (fun r => r.id ≠ br.id) ∧
      db'.files = (db.files.filter (fun f => f.id ≠ bf.id)).filter
        (fun f => f.bookId ≠ br.id) ∧
      (∀ a ∈ db.authors, (a ∈ db'.authors ↔
        ¬((⟨br.id, a.id⟩ : BARow) ∈ db.booksAuthors ∧
          (db.booksAuthors.filter (fun l => l.authorId = a.id)).length = 1))) ∧
      (∀ t ∈ db.tags, (t ∈ db'.tags ↔
        ¬((⟨bf.id, t.id⟩ : FTRow) ∈ db.filesTags ∧
          (db.filesTags.filter (fun l => l.tagId = t.id)).length = 1))) := by
  have hbrid : br.id = fr.bookId := by
    simpa using (of_filter_eq_singleton hbr).2
  have hgb : getBooksByID db [fr.bookId] = [toBook db br] :=
    getBooksByID_singleton db fr.bookId br hbr
  have hlast : IsLastFile db bf = Except.ok true := by
    simp only [IsLastFile, hfr1, hgb, toBook, filesOfBook, hbrid, honly,
      List.map_cons, List.map_nil, List.length_cons, List.length_nil]
    rfl
  have hfb : (toBook db br).files = toBookFile db fr :: [] := by
    simp only [toBook, filesOfBook, hbrid, honly, List.map_cons, List.map_nil]
  have hrun1 : DeleteFile db bf = indexBookInSearch
      { db with
        books := db.books.filter (fun r => r.id ≠ br.id),
        files := (db.files.filter (fun f => f.id ≠ bf.id)).filter
          (fun f => f.bookId ≠ br.id),
        authors := db.authors.filter (fun a => a.id ∉ authorsToDelete db br.id),
        tags := db.tags.filter (fun t => t.id ∉ tagsToDelete db bf.id),
        booksAuthors := (db.booksAuthors.filter
          (fun l => l.authorId ∉ authorsToDelete db br.id)).filter
          (fun l => l.bookId ≠ br.id),
        filesTags := ((db.filesTags.filter
          (fun l => l.tagId ∉ tagsToDelete db bf.id)).filter
          (fun l => l.fileId ≠ bf.id)).filter
          (fun l => l.fileId ∉ ((db.files.filter (fun f => f.id ≠ bf.id)).filter
            (fun f => f.bookId = br.id)).map (fun f => f.id)),
        fts := (db.fts.filter (fun r => r.docid ≠ br.id)).filter
          (fun r => r.docid ≠ br.id) }
      (toBook db br) true := by
    simp only [DeleteFile, deleteFile, hlast, hfr2, hgb, cleanupTags_eq,
      deleteBook, cleanupAuthors, deleteBookFromSearch, if_true]
    rfl
  rw [hrun1, indexBookInSearch_createNew _ (toBook db br) _ _ hfb]
  refine ⟨_, rfl, rfl, rfl, ?_, ?_⟩
  · intro a ha
    simp only [List.mem_filter, ha, true_and, decide_eq_true_eq]
    rw [mem_barow_iff]
    unfold authorsToDelete
    simp only [List.mem_filter, List.mem_map, decide_eq_true_eq]
    constructor
    · intro hnot hcontra
      obtain ⟨hlink, hcount⟩ := hcontra
      obtain ⟨l, hl, hl1, hl2⟩ := hlink
      exact hnot ⟨⟨l, ⟨hl, hl1⟩, hl2⟩, hcount⟩
    · intro hnot hcontra
      obtain ⟨⟨l, ⟨hl, hl1⟩, hl2⟩, hcount⟩ := hcontra
      exact hnot ⟨⟨l, hl, hl1, hl2⟩, hcount⟩
  · intro t ht
    simp only [List.mem_filter, ht, true_and, decide_eq_true_eq]
    rw [mem_ftrow_iff]
    unfold tagsToDelete
    simp only [List.mem_filter, List.mem_map, decide_eq_true_eq]
    constructor
    · intro hnot hcontra
      obtain ⟨hlink, hcount⟩ := hcontra
      obtain ⟨l, hl, hl1, hl2⟩ := hlink
      exact hnot ⟨⟨l, ⟨hl, hl1⟩, hl2⟩, hcount⟩
    · intro hnot hcontra
      obtain ⟨⟨l, ⟨hl, hl1⟩, hl2⟩, hcount⟩ := hcontra
      exact hnot ⟨⟨l, hl, hl1, hl2⟩, hcount⟩

/-- Witness for C4: deleting book 1's only file removes the book, the
file, author `A` and tag `t1`, while author `B` and tag `t2` (shared
with book 2 / file 2) survive. -/
theorem deleteFile_lastFile_cleanup_spec_witness :
    ∃ db', DeleteFile wDb4 wBf4 = Except.ok db' ∧
      db'.books = wDb4.books.filter (fun r => r.id ≠ 1) ∧
      db'.files = (wDb4.files.filter (fun f => f.id ≠ 1)).filter
        (fun f => f.bookId ≠ 1) ∧
      (∀ a ∈ wDb4.authors, (a ∈ db'.authors ↔
        ¬((⟨1, a.id⟩ : BARow) ∈ wDb4.booksAuthors ∧
          (wDb4.booksAuthors.filter (fun l => l.authorId = a.id)).length = 1))) ∧
      (∀ t ∈ wDb4.tags, (t ∈ db'.tags ↔
        ¬((⟨1, t.id⟩ : FTRow) ∈ wDb4.filesTags ∧
          (wDb4.filesTags.filter (fun l => l.tagId = t.id)).length = 1))) :=
  deleteFile_lastFile_cleanup_spec wDb4 wBf4
    ⟨1, 1, "epub", "o1", "f1", 1, 1, "h1", "s1"⟩ ⟨1, "", "X"⟩
    (by decide) (by decide) (by decide) (by decide) (by decide)

/-- After merge reassignment no file references an absorbed book, so
the cascade filter keeps every file. -/
theorem reassign_filter_id (l : List FileRow) (i0 : Nat) (rest : List Nat)
    (h : i0 ∉ rest) :
    ((l.map (fun f => if f.bookId ∈ rest then { f with bookId := i0 } else f)).filter
      (fun f => f.bookId ∉ rest))
    = l.map (fun f => if f.bookId ∈ rest then { f with bookId := i0 } else f) := by
  rw [List.filter_eq_self]
  intro a ha
  obtain ⟨x, hx, rfl⟩ := List.mem_map.1 ha
  by_cases hxb : x.bookId ∈ rest
  · simp [hxb, h]
  · simp [hxb]

/-- After merge reassignment the set of files still owned by an
absorbed book is empty. -/
theorem reassign_filter_rest (l : List FileRow) (i0 : Nat) (rest : List Nat)
    (h : i0 ∉ rest) :
    ((l.map (fun f => if f.bookId ∈ rest then { f with bookId := i0 } else f)).filter
      (fun f => f.bookId ∈ rest)) = [] := by
  rw [List.filter_eq_nil_iff]
  intro a ha
  obtain ⟨x, hx, rfl⟩ := List.mem_map.1 ha
  by_cases hxb : x.bookId ∈ rest
  · simp [hxb, h]
  · simp [hxb]

/-- After merge reassignment the target owns exactly the files that
any of the merged books owned, id for id. -/
theorem reassign_owner_ids (l : List FileRow) (i0 : Nat) (rest : List Nat)
    (h : i0 ∉ rest) :
    ((l.map (fun f => if f.bookId ∈ rest then { f with bookId := i0 } else f)).filter
      (fun f => f.bookId = i0)).map (fun f => f.id)
    = (l.filter (fun f => f.bookId = i0 ∨ f.bookId ∈ rest)).map (fun f => f.id) := by
  induction l with
  | nil => rfl
  | cons x xs ih =>
      rw [List.map_cons, List.filter_cons, List.filter_cons]
      by_cases hx : x.bookId ∈ rest
      · simp only [if_pos hx]
        simp [hx, ih]
      · simp only [if_neg hx]
        by_cases hx0 : x.bookId = i0
        · simp [hx0, hx, ih]
        · simp [hx0, hx, ih]

/-- Deleting the absorbed documents and then the target's document is
one filter over the whole merged id list. -/
theorem fts_filter_merge (l : List FtsRow) (i0 : Nat) (rest : List Nat) :
    (l.filter (fun r => r.docid ∉ rest)).filter (fun r => r.docid ≠ i0)
      = l.filter (fun r => r.docid ∉ (i0 :: rest)) := by
  rw [List.filter_filter]
  apply List.filter_congr
  intro a _
  by_cases h1 : a.docid = i0
  · simp [h1]
  · by_cases h2 : a.docid ∈ rest
    · simp [h1, h2]
    · simp [h1, h2]

/-- Filtering by a key out of `rest` and then selecting key `i0 ∉ rest`
is just selecting key `i0`. -/
theorem filter_notmem_filter_eq {α : Type} (l : List α) (g : α → Nat) (i0 : Nat)
    (rest : List Nat) (h : i0 ∉ rest) :
    (l.filter (fun x => g x ∉ rest)).filter (fun x => g x = i0)
      = l.filter (fun x => g x = i0) := by
  rw [List.filter_filter]
  apply List.filter_congr
  intro a _
  by_cases h1 : g a = i0
  · simp [h1, h]
  · simp [h1]

/-- `tagsOfFile` only reads the `files_tags` and `tags` tables. -/
theorem tagsOfFile_congr (d1 d2 : Db) (h1 : d1.filesTags = d2.filesTags)
    (h2 : d1.tags = d2.tags) : tagsOfFile d1 = tagsOfFile d2 := by
  funext fid
  unfold tagsOfFile
  rw [h1, h2]

/-- `authorsOfBook` only reads the `books_authors` and `authors`
tables. -/
theorem authorsOfBook_congr (d1 d2 : Db) (h1 : d1.booksAuthors = d2.booksAuthors)
    (h2 : d1.authors = d2.authors) : authorsOfBook d1 = authorsOfBook d2 := by
  funext bid
  unfold authorsOfBook
  rw [h1, h2]

/-- C3: merging N ≥ 2 existing books into `ids[0]` gives `ids[0]` the
union of all files previously owned by any of them (file ids
preserved); deletes the book rows and search documents of `ids[1:]`;
deletes no Author row and no Tag row at all — in particular none that
still has other references (the absorbed books' author links go with
the cascade, the rows stay); and rebuilds `ids[0]`'s document from its
complete current file set: space-joined author names, series, title,
the extensions of all its files, all their tags, and all their source
labels. -/
theorem mergeBooks_spec (db : Db) (i0 : Nat) (rest : List Nat) (br : BookRow)
    (hrest : rest ≠ [])
    (hnd : (i0 :: rest).Nodup)
    (hbr : db.books.filter (fun r => r.id = i0) = [br])
    (hex : ∀ j ∈ rest, ∃ b ∈ db.books, b.id = j)
    (hfile : ∃ f ∈ db.files, f.bookId = i0 ∨ f.bookId ∈ rest) :
    ∃ db', MergeBooks db (i0 :: rest) = Except.ok db' ∧
      db'.files = db.files.map (fun f =>
        if f.bookId ∈ rest then { f with bookId := i0 } else f) ∧
      (db'.files.filter (fun f => f.bookId = i0)).map (fun f => f.id)
        = (db.files.filter (fun f => f.bookId = i0 ∨ f.bookId ∈ rest)).map
            (fun f => f.id) ∧
      db'.books = db.books.filter (fun r => r.id ∉ rest) ∧
      db'.authors = db.authors ∧
      db'.tags = db.tags ∧
      db'.booksAuthors = db.booksAuthors.filter (fun l => l.bookId ∉ rest) ∧
      db'.fts = (db.fts.filter (fun r => r.docid ∉ (i0 :: rest))) ++ [{
        docid := i0,
        author := String.intercalate " & " (authorsOfBook db i0),
        series := br.series,
        title := br.title,
        extension := String.intercalate " " ((db'.files.filter
          (fun f => f.bookId = i0)).map (fun f => f.extension)),
        tags := String.intercalate " " (((db'.files.filter
          (fun f => f.bookId = i0)).map (fun f => tagsOfFile db f.id)).flatten),
        filename := "",
        source := String.intercalate " " ((db'.files.filter
          (fun f => f.bookId = i0)).map (fun f => f.source)) }] := by
  have hi0 : i0 ∉ rest := (List.nodup_cons.1 hnd).1
  have hbrid : br.id = i0 := by
    simpa using (of_filter_eq_singleton hbr).2
  have h4 : (mergeMid db i0 rest).books.filter (fun r => r.id = i0) = [br] := by
    show (db.books.filter (fun r => r.id ∉ rest)).filter (fun r => r.id = i0) = [br]
    rw [filter_notmem_filter_eq db.books (fun r => r.id) i0 rest hi0, hbr]
  have hgb4 : getBooksByID (mergeMid db i0 rest) [i0]
      = [toBook (mergeMid db i0 rest) br] :=
    getBooksByID_singleton (mergeMid db i0 rest) i0 br h4
  have hrun1 : MergeBooks db (i0 :: rest)
      = indexBookInSearch (mergeMid db i0 rest)
          (toBook (mergeMid db i0 rest) br) true := by
    simp only [MergeBooks, mergeBooks, deleteBooksCascade]
    split
    · next heq =>
        exact absurd (heq.symm.trans hgb4) (by simp)
    · next b rest2 heq =>
        have hb := heq.symm.trans hgb4
        injection hb with hb1 hb2
        rw [hb1]
        rfl
  have hne : (toBook (mergeMid db i0 rest) br).files ≠ [] := by
    obtain ⟨f, hf, hcase⟩ := hfile
    have hmm : (if f.bookId ∈ rest then { f with bookId := i0 } else f)
        ∈ (mergeMid db i0 rest).files := by
      show _ ∈ (db.files.map (fun g =>
        if g.bookId ∈ rest then { g with bookId := i0 } else g)).filter
        (fun g => g.bookId ∉ rest)
      rw [reassign_filter_id db.files i0 rest hi0]
      exact List.mem_map_of_mem _ hf
    have hbid : (if f.bookId ∈ rest then { f with bookId := i0 } else f).bookId
        = i0 := by
      rcases hcase with h | h
      · by_cases hfr : f.bookId ∈ rest
        · simp [hfr]
        · simp [hfr, h, hi0]
      · simp [h]
    have hmem2 : (if f.bookId ∈ rest then { f with bookId := i0 } else f)
        ∈ (mergeMid db i0 rest).files.filter (fun x => x.bookId = br.id) := by
      rw [hbrid]
      exact List.mem_filter.2 ⟨hmm, by simp [hbid]⟩
    intro hempty
    have hempty2 : ((mergeMid db i0 rest).files.filter
        (fun x => x.bookId = br.id)).map (toBookFile (mergeMid db i0 rest))
        = [] := hempty
    rw [List.map_eq_nil_iff] at hempty2
    rw [hempty2] at hmem2
    cases hmem2
  obtain ⟨f0, fs, hcons⟩ := List.exists_cons_of_ne_nil hne
  rw [hrun1, indexBookInSearch_createNew (mergeMid db i0 rest)
    (toBook (mergeMid db i0 rest) br) f0 fs hcons]
  have hfiles2 : (toBook (mergeMid db i0 rest) br).files
      = ((mergeMid db i0 rest).files.filter (fun f => f.bookId = i0)).map
          (toBookFile (mergeMid db i0 rest)) := by
    show filesOfBook (mergeMid db i0 rest) br.id = _
    rw [hbrid]
    rfl
  have htof : tagsOfFile (mergeMid db i0 rest) = tagsOfFile db := by
    apply tagsOfFile_congr
    · show db.filesTags.filter _ = db.filesTags
      rw [reassign_filter_rest db.files i0 rest hi0]
      simp
    · rfl
  have hauth : (toBook (mergeMid db i0 rest) br).authors = authorsOfBook db i0 := by
    show authorsOfBook (mergeMid db i0 rest) br.id = authorsOfBook db i0
    rw [hbrid]
    show ((db.booksAuthors.filter (fun l => l.bookId ∉ rest)).filter
        (fun l => l.bookId = i0)).filterMap
        (fun l => (db.authors.find? (fun a => a.id = l.authorId)).map
          (fun a => a.name))
      = authorsOfBook db i0
    rw [filter_notmem_filter_eq db.booksAuthors (fun l => l.bookId) i0 rest hi0]
    rfl
  refine ⟨_, rfl, ?_, ?_, rfl, rfl, rfl, rfl, ?_⟩
  · show ((db.files.map (fun f =>
        if f.bookId ∈ rest then { f with bookId := i0 } else f)).filter
        (fun f => f.bookId ∉ rest)) = _
    exact reassign_filter_id db.files i0 rest hi0
  · show (((db.files.map (fun f =>
        if f.bookId ∈ rest then { f with bookId := i0 } else f)).filter
        (fun f => f.bookId ∉ rest)).filter (fun f => f.bookId = i0)).map
        (fun f => f.id) = _
    rw [filter_notmem_filter_eq (db.files.map (fun f =>
      if f.bookId ∈ rest then { f with bookId := i0 } else f))
      (fun f => f.bookId) i0 rest hi0]
    exact reassign_owner_ids db.files i0 rest hi0
  · show ((db.fts.filter (fun r => r.docid ∉ rest)).filter
        (fun r => r.docid ≠ i0)) ++ _ = _
    rw [fts_filter_merge]
    congr 1
    congr 1
    simp only [FtsRow.mk.injEq]
    refine ⟨?_, ?_, rfl, rfl, ?_, ?_, trivial, ?_⟩
    · exact hbrid
    · rw [hauth]
    · rw [hfiles2, List.map_map]
      rfl
    · rw [hfiles2, List.map_map]
      show String.intercalate " " ((((mergeMid db i0 rest).files.filter
        (fun f => f.bookId = i0)).map
          (fun f => tagsOfFile (mergeMid db i0 rest) f.id)).flatten) = _
      rw [htof]
    · rw [hfiles2, List.map_map]
      rfl

/-- Witness for C3 at the concrete merge of book 2 into book 1. -/
theorem mergeBooks_spec_witness :
    ∃ db', MergeBooks wDb3 (1 :: [2]) = Except.ok db' ∧
      db'.files = wDb3.files.map (fun f =>
        if f.bookId ∈ [2] then { f with bookId := 1 } else f) ∧
      (db'.files.filter (fun f => f.bookId = 1)).map (fun f => f.id)
        = (wDb3.files.filter (fun f => f.bookId = 1 ∨ f.bookId ∈ [2])).map
            (fun f => f.id) ∧
      db'.books = wDb3.books.filter (fun r => r.id ∉ [2]) ∧
      db'.authors = wDb3.authors ∧
      db'.tags = wDb3.tags ∧
      db'.booksAuthors = wDb3.booksAuthors.filter (fun l => l.bookId ∉ [2]) ∧
      db'.fts = (wDb3.fts.filter (fun r => r.docid ∉ (1 :: [2]))) ++ [{
        docid := 1,
        author := String.intercalate " & " (authorsOfBook wDb3 1),
        series := "s1", title := "T1",
        extension := String.intercalate " " ((db'.files.filter
          (fun f => f.bookId = 1)).map (fun f => f.extension)),
        tags := String.intercalate " " (((db'.files.filter
          (fun f => f.bookId = 1)).map (fun f => tagsOfFile wDb3 f.id)).flatten),
        filename := "",
        source := String.intercalate " " ((db'.files.filter
          (fun f => f.bookId = 1)).map (fun f => f.source)) }] :=
  mergeBooks_spec wDb3 1 [2] ⟨1, "s1", "T1"⟩ (by decide) (by decide) (by decide)
    (by decide) (by decide)
